import Mathlib

/-!
Verification development for a TrueType font table decoder.

The definitions below are a shallow embedding of the decoder:

* `FontReader` and its read operations embed `src/font_reader.rs`
  (a big-endian byte cursor over an in-memory buffer; `read_exact`
  past the end of the buffer is the error `unexpectedEndOfData`).
* `bit_is_set`, `get_coordinates`, `Glyph`, `get_glyph_location`,
  `get_glyphs` and `map_glyph_to_unicode` embed the functions of the
  same names in `src/font_table_parser.rs`.

Modelling conventions:

* Bytes are `Nat` values; `read_byte` reduces the stored value mod 256,
  matching the `u8` content of the real buffer.
* The `f32` coordinate arithmetic of the source is modelled in `ℚ`
  (exact real arithmetic with the same literals: the factors 10.0,
  2.25 and 4.0).
* Rust panics are modelled as error values: indexing the font-table
  `HashMap` with a missing key is `missingRequiredTable`, indexing an
  empty glyph vector is `panicOutOfBounds`, and the two explicit
  `panic!` calls of `map_glyph_to_unicode` are
  `unsupportedCharacterMap` / `unsupportedCharacterMapFormat`.
* Integer wrap-around follows release-mode (two's-complement wrapping)
  semantics where the source can overflow.
-/

/-- Error outcomes of the decoder: the reader's end-of-data condition plus
the panics of `font_table_parser.rs`, modelled as error values. -/
inductive FontError where
  | unexpectedEndOfData
  | missingRequiredTable (tag : String)
  | unsupportedCharacterMap
  | unsupportedCharacterMapFormat
  | panicOutOfBounds
deriving DecidableEq, Repr

/-- The byte cursor of `src/font_reader.rs`: an in-memory buffer and a
movable read position. -/
structure FontReader where
  data : List Nat
  pos : Nat
deriving DecidableEq, Repr

/-- `FontReader::read_byte`: read one byte at the cursor and advance; reading
past the end of the buffer fails. -/
def FontReader.read_byte (r : FontReader) : Except FontError (Nat × FontReader) :=
  if r.pos + 1 ≤ r.data.length then
    .ok (r.data.getD r.pos 0 % 256, { r with pos := r.pos + 1 })
  else
    .error .unexpectedEndOfData

/-- `FontReader::read_u16`: two bytes, big-endian. -/
def FontReader.read_u16 (r : FontReader) : Except FontError (Nat × FontReader) := do
  let (b0, r₁) ← r.read_byte
  let (b1, r₂) ← r₁.read_byte
  .ok (b0 * 256 + b1, r₂)

/-- `FontReader::read_u32`: four bytes, big-endian. -/
def FontReader.read_u32 (r : FontReader) : Except FontError (Nat × FontReader) := do
  let (b0, r₁) ← r.read_byte
  let (b1, r₂) ← r₁.read_byte
  let (b2, r₃) ← r₂.read_byte
  let (b3, r₄) ← r₃.read_byte
  .ok (((b0 * 256 + b1) * 256 + b2) * 256 + b3, r₄)

/-- Reinterpret an unsigned 16-bit value as a signed (two's complement) one. -/
def toSigned16 (v : Nat) : Int :=
  if v % 65536 < 32768 then (v % 65536 : Int) else (v % 65536 : Int) - 65536

/-- `FontReader::read_i16`: two bytes, big-endian, two's complement. -/
def FontReader.read_i16 (r : FontReader) : Except FontError (Int × FontReader) := do
  let (v, r₁) ← r.read_u16
  .ok (toSigned16 v, r₁)

/-- `FontReader::skip_bytes`: advance the cursor without reading. -/
def FontReader.skip_bytes (r : FontReader) (n : Nat) : FontReader :=
  { r with pos := r.pos + n }

/-- `FontReader::go_to`: absolute seek. -/
def FontReader.go_to (r : FontReader) (p : Nat) : FontReader :=
  { r with pos := p }

/-- `FontReader::get_location`: the current cursor position. -/
def FontReader.get_location (r : FontReader) : Nat := r.pos

/-- `bit_is_set` of `font_table_parser.rs`: `(flag >> bit) & 1 == 1`. -/
def bit_is_set (flag bit : Nat) : Bool := ((flag >>> bit) &&& 1) == 1

/-- `FONT_SIZE_FACTOR` of `font_table_parser.rs` (an `f32` constant, 10.0). -/
def FONT_SIZE_FACTOR : ℚ := 10

/-- A 2-d point (the source's `bevy::math::Vec2`, `f32` components modelled
in `ℚ`). -/
structure Vec2 where
  x : ℚ
  y : ℚ
deriving DecidableEq, Repr

/-- The index `i16::max(0, (i as i16) - 1) as usize` used by `get_coordinates`
to fetch the previous point's coordinate, with release-mode (wrapping)
semantics for the 16-bit cast and subtraction.  For `i ≤ 32768` this equals
`i - 1` (truncated at 0). -/
def prevIdx (i : Nat) : Nat := (max 0 (toSigned16 ((i + 65535) % 65536))).toNat

/-- One axis pass of `get_coordinates` (run once for X with bits 1/4, once
for Y with bits 2/5): for each flag, start from the previous point's
coordinate and add a delta read from the cursor (one unsigned byte with a
sign bit, a signed 16-bit word, or nothing), each delta divided by
`FONT_SIZE_FACTOR`.  The array accumulates the finished coordinates; the
entry for index `i` is pushed when `acc.size = i`. -/
def axisPass (shortVectorBit signOrSkipBit : Nat) :
    List Nat → Array ℚ → FontReader → Except FontError (Array ℚ × FontReader)
  | [], acc, r => .ok (acc, r)
  | flag :: rest, acc, r =>
    let start := acc.getD (prevIdx acc.size) 0
    if bit_is_set flag shortVectorBit then do
      let (b, r₁) ← r.read_byte
      let sign : ℚ := if bit_is_set flag signOrSkipBit then 1 else -1
      axisPass shortVectorBit signOrSkipBit rest
        (acc.push (start + ((b : ℚ) * sign) / FONT_SIZE_FACTOR)) r₁
    else if !(bit_is_set flag signOrSkipBit) then do
      let (d, r₁) ← r.read_i16
      axisPass shortVectorBit signOrSkipBit rest
        (acc.push (start + (d : ℚ) / FONT_SIZE_FACTOR)) r₁
    else
      axisPass shortVectorBit signOrSkipBit rest (acc.push start) r

/-- `get_coordinates` of `font_table_parser.rs`: the X pass (bits 1/4), the
Y pass (bits 2/5), the pairing of each point with bit 0 of its flag, and
the final adjustment `point -= first_point + (w.x/2.25, -w.y/4.0)`.
`coordinates[0]` on an empty vector panics in the source
(`panicOutOfBounds` here); inside `get_glyphs` the flag list is never
empty. -/
def get_coordinates (r : FontReader) (flags : List Nat) (window_size : Vec2) :
    Except FontError (List (Vec2 × Bool) × FontReader) := do
  let (xs, r₁) ← axisPass 1 4 flags #[] r
  let (ys, r₂) ← axisPass 2 5 flags #[] r₁
  let coordinates := List.zipWith (fun p f => (Vec2.mk p.1 p.2, bit_is_set f 0))
    (xs.toList.zip ys.toList) flags
  match coordinates with
  | [] => .error .panicOutOfBounds
  | c₀ :: _ =>
    .ok (coordinates.map (fun pc =>
      (⟨pc.1.x - (c₀.1.x + window_size.x / (9/4)),
        pc.1.y - (c₀.1.y - window_size.y / 4)⟩, pc.2)), r₂)

/-- `Glyph` of `font_table_parser.rs`: the decoded point list (with on-curve
flags) and the contour-end-point indices. -/
structure Glyph where
  coordinates : List (Vec2 × Bool)
  contour_end_pts : List Nat
deriving DecidableEq, Repr

/-- `usize::MAX` on a 64-bit platform. -/
def usizeMax : Nat := 2 ^ 64 - 1

/-- The cast `i16 as usize` (sign extension to 64 bits). -/
def i16AsUsize (n : Int) : Nat := (n % (2 ^ 64 : Int)).toNat

/-- Read `n` big-endian 16-bit values (the contour-end-point loop and the
format 4 table loops of the source). -/
def read_u16_list : Nat → FontReader → Except FontError (List Nat × FontReader)
  | 0, r => .ok ([], r)
  | n + 1, r => do
    let (v, r₁) ← r.read_u16
    let (rest, r₂) ← read_u16_list n r₁
    .ok (v :: rest, r₂)

/-- The flag-reading `while i < flag_capacity` loop of `get_glyphs`.
`remaining` is `flag_capacity - i`; a flag byte with bit 3 set is followed
by a repeat count, and the flag is pushed once plus that many extra times,
all within one iteration (the source does not truncate the repeat run).
`bound` is a structural-recursion bound: every iteration decreases
`remaining` by at least 1, so with `remaining ≤ bound` the `bound = 0`
branch is unreachable. -/
def readFlagsGo : Nat → Nat → FontReader → Except FontError (List Nat × FontReader)
  | _, 0, r => .ok ([], r)
  | 0, _ + 1, r => .ok ([], r)
  | b + 1, rem + 1, r => do
    let (flag, r₁) ← r.read_byte
    if bit_is_set flag 3 then do
      let (rep, r₂) ← r₁.read_byte
      let (rest, r₃) ← readFlagsGo b (rem - rep) r₂
      .ok (flag :: (List.replicate rep flag ++ rest), r₃)
    else do
      let (rest, r₂) ← readFlagsGo b rem r₁
      .ok (flag :: rest, r₂)

/-- The simple-glyph branch of `get_glyphs` (contour count not the `-1`
sentinel): skip the 8 bounding-box bytes, read the contour end points, skip
the instructions, read the flags (capacity = last contour end + 1, with
`last` defaulting to 0 for an empty list), then decode the coordinates. -/
def decode_simple_glyph (n_contours : Nat) (window_size : Vec2) (r : FontReader) :
    Except FontError (Glyph × FontReader) := do
  let r := r.skip_bytes 8
  let (contour_end_pts, r₁) ← read_u16_list n_contours r
  let (instructions_length, r₂) ← r₁.read_u16
  let r₂ := r₂.skip_bytes instructions_length
  let flag_capacity := contour_end_pts.getLast?.getD 0 + 1
  let (flags, r₃) ← readFlagsGo flag_capacity flag_capacity r₂
  let (coordinates, r₄) ← get_coordinates r₃ flags window_size
  .ok (⟨coordinates, contour_end_pts⟩, r₄)

/-- One iteration of the `get_glyphs` loop, at one glyph location: seek
there, read the contour count; the `-1` sentinel (`n_contours as usize ==
usize::MAX`) pushes a clone of `glyphs[0]` — a panic (`panicOutOfBounds`)
when the glyph list is still empty — and reads nothing further at that
offset; any other count decodes a simple glyph. -/
def getGlyphsStep (window_size : Vec2) (glyphs : List Glyph) (loc : Nat) (r : FontReader) :
    Except FontError (List Glyph × FontReader) := do
  let (n_contours_raw, r₁) ← (r.go_to loc).read_i16
  if i16AsUsize n_contours_raw = usizeMax then
    match glyphs with
    | [] => .error .panicOutOfBounds
    | g₀ :: _ => .ok (glyphs ++ [g₀], r₁)
  else do
    let (g, r₂) ← decode_simple_glyph (i16AsUsize n_contours_raw) window_size r₁
    .ok (glyphs ++ [g], r₂)

/-- The `for glyf_location in self.glyph_locations` loop of `get_glyphs`,
threading the growing glyph list. -/
def getGlyphsAux (window_size : Vec2) :
    List Nat → List Glyph → FontReader → Except FontError (List Glyph × FontReader)
  | [], glyphs, r => .ok (glyphs, r)
  | loc :: rest, glyphs, r => do
    let (glyphs₁, r₁) ← getGlyphsStep window_size glyphs loc r
    getGlyphsAux window_size rest glyphs₁ r₁

/-- `get_glyphs` of `font_table_parser.rs`, starting from an empty glyph
collection (as in the single call site). -/
def get_glyphs (r : FontReader) (glyph_locations : List Nat) (window_size : Vec2) :
    Except FontError (List Glyph × FontReader) :=
  getGlyphsAux window_size glyph_locations [] r

/-- Indexing `self.font_table[tag]`: the value when the tag is present; the
source's `HashMap` index panic on a missing tag is the
`missingRequiredTable` error (the spec's taxonomy for that failure). -/
def tableLookup (font_table : List (String × Nat)) (tag : String) : Except FontError Nat :=
  match font_table.find? (fun p => p.1 == tag) with
  | some p => .ok p.2
  | none => .error (.missingRequiredTable tag)

/-- The `loca`-entry loop of `get_glyph_location`: `num_glyphs` entries,
each pushed as `glyf_table_loc + glyph_offset` where a two-byte entry is
doubled and a four-byte entry is taken as read. -/
def read_loca_entries (is_two_byte_entry : Bool) (glyf_table_loc : Nat) :
    Nat → FontReader → Except FontError (List Nat × FontReader)
  | 0, r => .ok ([], r)
  | n + 1, r =>
    if is_two_byte_entry then do
      let (v, r₁) ← r.read_u16
      let (rest, r₂) ← read_loca_entries is_two_byte_entry glyf_table_loc n r₁
      .ok ((glyf_table_loc + v * 2) :: rest, r₂)
    else do
      let (v, r₁) ← r.read_u32
      let (rest, r₂) ← read_loca_entries is_two_byte_entry glyf_table_loc n r₁
      .ok ((glyf_table_loc + v) :: rest, r₂)

/-- `get_glyph_location` of `font_table_parser.rs`: look up `loca`, `glyf`,
`maxp` (glyph count at byte 4) and `head` (loca format at byte 50), then
read one offset per glyph from the `loca` table. -/
def get_glyph_location (font_table : List (String × Nat)) (r : FontReader) :
    Except FontError (List Nat × FontReader) := do
  let loca_table_loc ← tableLookup font_table "loca"
  let glyf_table_loc ← tableLookup font_table "glyf"
  let maxp_loc ← tableLookup font_table "maxp"
  let (num_glyphs, r₁) ← (r.go_to (maxp_loc + 4)).read_u16
  let head_loc ← tableLookup font_table "head"
  let (loca_format, r₂) ← (r₁.go_to (head_loc + 50)).read_i16
  read_loca_entries (loca_format == 0) glyf_table_loc num_glyphs (r₂.go_to loca_table_loc)

/-- `HashMap::insert` as observed through lookups: the newest binding for a
key wins. -/
def mapInsert (m : List (Nat × Nat)) (k v : Nat) : List (Nat × Nat) := (k, v) :: m

/-- `HashMap` lookup: the value of the newest binding for the key. -/
def mapFind (m : List (Nat × Nat)) (k : Nat) : Option Nat :=
  (m.find? (fun p => p.1 == k)).map (fun p => p.2)

/-- `u32::MAX`, the `cmap_subtable_offset` sentinel for "no subtable
chosen yet". -/
def u32Max : Nat := 2 ^ 32 - 1

/-- The subtable-selection loop of `map_glyph_to_unicode`: platform 0 with
platform-specific id 4 always takes the offset; id 3 takes it only while
the sentinel is still in place. -/
def scanSubtables : Nat → FontReader → Nat → Except FontError (Nat × FontReader)
  | 0, r, best => .ok (best, r)
  | n + 1, r, best => do
    let (platform_id, r₁) ← r.read_u16
    let (platform_specific_id, r₂) ← r₁.read_u16
    let (offset, r₃) ← r₂.read_u32
    let best₁ :=
      if platform_id = 0 then
        if platform_specific_id = 4 then offset
        else if platform_specific_id = 3 ∧ best = u32Max then offset
        else best
      else best
    scanSubtables n r₃ best₁

/-- The per-group insertion loop of the format 12 branch: one entry per
`char_code_offset` in `0..(end - start + 1)`, key `start + offset` (u32
wrapping), value `start_glyph + offset`. -/
def insertGroup (start_char_code start_glyph_code : Nat) :
    Nat → Nat → List (Nat × Nat) → List (Nat × Nat)
  | 0, _, m => m
  | count + 1, off, m =>
    insertGroup start_char_code start_glyph_code count (off + 1)
      (mapInsert m ((start_char_code + off) % 2 ^ 32) (start_glyph_code + off))

/-- The group loop of the format 12 branch: per group three 32-bit fields,
then the insertions; the iteration count `end - start + 1` is u32
arithmetic (wrapping). -/
def format12GroupLoop : Nat → FontReader → List (Nat × Nat) →
    Except FontError (List (Nat × Nat) × FontReader)
  | 0, r, m => .ok (m, r)
  | n + 1, r, m => do
    let (start_char_code, r₁) ← r.read_u32
    let (end_char_code, r₂) ← r₁.read_u32
    let (start_glyph_code, r₃) ← r₂.read_u32
    let count := ((end_char_code + 2 ^ 32 - start_char_code) % 2 ^ 32 + 1) % 2 ^ 32
    format12GroupLoop n r₃ (insertGroup start_char_code start_glyph_code count 0 m)

/-- The `id_range_offsets` loop of the format 4 branch: each entry pairs
the cursor position at which the 16-bit value was read with the value. -/
def read_range_offsets : Nat → FontReader → Except FontError (List (Nat × Nat) × FontReader)
  | 0, r => .ok ([], r)
  | n + 1, r => do
    let loc := r.get_location
    let (v, r₁) ← r.read_u16
    let (rest, r₂) ← read_range_offsets n r₁
    .ok ((loc, v) :: rest, r₂)

/-- The `while curr_code <= end_code` loop of the format 4 branch for one
segment; `fuel` is `end_code + 1 - curr_code`.  Zero range-offset maps
directly through the delta; a nonzero one reads the glyph index at
`(location of the range-offset value) + offset + 2 * (code - start)`,
restores the cursor, and inserts `(value + delta) % 65536` when the value
is nonzero — and 0 (the initial `glyph_index`) when it is zero.  The
insertion happens unconditionally. -/
def format4SegLoop (start_code id_delta : Nat) (id_range_offset : Nat × Nat) :
    Nat → Nat → FontReader → List (Nat × Nat) →
    Except FontError (List (Nat × Nat) × FontReader)
  | 0, _, r, m => .ok (m, r)
  | fuel + 1, curr_code, r, m =>
    if id_range_offset.2 = 0 then
      format4SegLoop start_code id_delta id_range_offset fuel (curr_code + 1) r
        (mapInsert m curr_code ((curr_code + id_delta) % 65536))
    else do
      let range_offset_location := id_range_offset.1 + id_range_offset.2
      let glyph_index_address := range_offset_location + 2 * (curr_code - start_code)
      let reader_prev_location := r.get_location
      let (glyph_index_offset, r₁) ← (r.go_to glyph_index_address).read_u16
      let r₂ := r₁.go_to reader_prev_location
      let glyph_index := if glyph_index_offset ≠ 0 then (glyph_index_offset + id_delta) % 65536 else 0
      format4SegLoop start_code id_delta id_range_offset fuel (curr_code + 1) r₂
        (mapInsert m curr_code glyph_index)

/-- The `for i in 0..start_codes.len()` segment loop of the format 4
branch. -/
def format4Segs (start_codes end_codes id_deltas : List Nat)
    (id_range_offsets : List (Nat × Nat)) :
    Nat → Nat → FontReader → List (Nat × Nat) →
    Except FontError (List (Nat × Nat) × FontReader)
  | 0, _, r, m => .ok (m, r)
  | rem + 1, i, r, m => do
    let end_code := end_codes.getD i 0
    let start := start_codes.getD i 0
    let (m₁, r₁) ← format4SegLoop start (id_deltas.getD i 0) (id_range_offsets.getD i (0, 0))
      (end_code + 1 - start) start r m
    format4Segs start_codes end_codes id_deltas id_range_offsets rem (i + 1) r₁ m₁

/-- `map_glyph_to_unicode` of `font_table_parser.rs`: choose the Unicode
`cmap` subtable, dispatch on format 4 or 12 (any other format, or no
qualifying subtable, panics in the source — errors here), and build the
code-point → glyph-index map. -/
def map_glyph_to_unicode (font_table : List (String × Nat)) (r : FontReader) :
    Except FontError (List (Nat × Nat) × FontReader) := do
  let cmapLoc ← tableLookup font_table "cmap"
  let r := (r.go_to cmapLoc).skip_bytes 2
  let (n_subtables, r₁) ← r.read_u16
  let (cmap_subtable_offset, r₂) ← scanSubtables n_subtables r₁ u32Max
  if cmap_subtable_offset = u32Max then
    .error .unsupportedCharacterMap
  else do
    let r₃ := r₂.go_to (cmapLoc + cmap_subtable_offset)
    let (format, r₄) ← r₃.read_u16
    if format ≠ 4 ∧ format ≠ 12 then
      .error .unsupportedCharacterMapFormat
    else if format = 12 then do
      let r₅ := r₄.skip_bytes 10
      let (n_groups, r₆) ← r₅.read_u32
      format12GroupLoop n_groups r₆ []
    else do
      let r₅ := r₄.skip_bytes 4
      let (seg_count_x2, r₆) ← r₅.read_u16
      let seg_count := seg_count_x2 / 2
      let r₆ := r₆.skip_bytes 6
      let (end_codes, r₇) ← read_u16_list seg_count r₆
      let r₇ := r₇.skip_bytes 2
      let (start_codes, r₈) ← read_u16_list seg_count r₇
      let (id_deltas, r₉) ← read_u16_list seg_count r₈
      let (id_range_offsets, r₁₀) ← read_range_offsets seg_count r₉
      format4Segs start_codes end_codes id_deltas id_range_offsets start_codes.length 0 r₁₀ []

/-! ## Synthetic fonts used by the concrete theorems -/

/-- A minimal `glyf` record: one triangle contour, 3 on-curve points
(flags `0x01`), contour end index 2, no instructions, X deltas
0, 10, −10 and Y deltas 0, 0, 10 (absolute points (0,0), (10,0), (0,10)). -/
def triData : List Nat := [0,1, 0,0,0,0,0,0,0,0, 0,2, 0,0, 1,1,1, 0,0, 0,10, 255,246, 0,0, 0,0, 0,10]

/-- The triangle glyph record followed by a compound-glyph record (contour
count bytes `0xFFFF`) at offset 29. -/
def compoundData : List Nat := triData ++ [255, 255]

/-- A `glyf` record with one contour, contour end index 1 (2 points), and a
single flag byte `0x39` (bit 3: repeat) with repeat count 5. -/
def overshootData : List Nat := [0,1, 0,0,0,0,0,0,0,0, 0,1, 0,0, 57, 5]

/-- A `glyf` record with contour count 0 followed by one flag byte `0x30`
(both same-value bits set, so no coordinate bytes). -/
def zeroContourData : List Nat := [0,0, 0,0,0,0,0,0,0,0, 0,0, 48]

/-- A `cmap` table (at offset 0) with one Unicode subtable, format 4, one
segment `[0x41, 0x42]` with delta 5 and range-offset 2; the glyph-index
array holds 0 (for 0x41) and 7 (for 0x42). -/
def fmt4Data : List Nat := [0,0, 0,1, 0,0, 0,4, 0,0,0,12, 0,4, 0,0,0,0, 0,2,
  0,0,0,0,0,0, 0,66, 0,0, 0,65, 0,5, 0,2, 0,0, 0,7]

/-- A byte buffer holding `maxp` at 0 (glyph count 2 at byte 4), `head` at 6
(loca format 0 at byte 56), and a short `loca` table at 58 with entries
5 and 7. -/
def locaData : List Nat := (List.replicate 4 0) ++ [0, 2] ++ (List.replicate 50 0) ++ [0,0] ++ [0,5, 0,7]

/-- The three 32-bit fields of a single format 12 group:
(0x1F600, 0x1F602, 500). -/
def groupData : List Nat := [0,1,246,0, 0,1,246,2, 0,0,1,244]

/-! ## General helper lemmas -/

/-- Bind of a successful `Except` computation. -/
@[simp] theorem exceptBind_ok {α β ε : Type} (a : α) (f : α → Except ε β) :
    (Except.ok a >>= f : Except ε β) = f a := rfl

/-- Bind of a failed `Except` computation. -/
@[simp] theorem exceptBind_error {α β ε : Type} (e : ε) (f : α → Except ε β) :
    (Except.error e >>= f : Except ε β) = Except.error e := rfl

/-- Decomposition of a successful bind. -/
theorem bind_ok_iff {ε α β : Type} {e : Except ε α} {f : α → Except ε β} {b : β} :
    (e >>= f) = .ok b ↔ ∃ a, e = .ok a ∧ f a = .ok b := by
  cases e <;> simp

/-- `read_byte` does not change the buffer. -/
theorem FontReader.read_byte_data {r r' : FontReader} {v : Nat}
    (h : r.read_byte = .ok (v, r')) : r'.data = r.data := by
  rw [FontReader.read_byte] at h
  split at h
  · rw [Except.ok.injEq, Prod.mk.injEq] at h
    obtain ⟨-, h₂⟩ := h
    subst h₂; rfl
  · simp at h

/-- `read_byte` yields a byte. -/
theorem FontReader.read_byte_lt {r r' : FontReader} {v : Nat}
    (h : r.read_byte = .ok (v, r')) : v < 256 := by
  rw [FontReader.read_byte] at h
  split at h
  · rw [Except.ok.injEq, Prod.mk.injEq] at h
    obtain ⟨h₁, -⟩ := h
    omega
  · simp at h

/-- `read_u16` does not change the buffer. -/
theorem FontReader.read_u16_data {r r' : FontReader} {v : Nat}
    (h : r.read_u16 = .ok (v, r')) : r'.data = r.data := by
  rw [FontReader.read_u16] at h
  rw [bind_ok_iff] at h
  obtain ⟨⟨b0, r₁⟩, h₁, h⟩ := h
  rw [bind_ok_iff] at h
  obtain ⟨⟨b1, r₂⟩, h₂, h⟩ := h
  rw [Except.ok.injEq, Prod.mk.injEq] at h
  obtain ⟨-, h₃⟩ := h
  subst h₃
  rw [FontReader.read_byte_data h₂, FontReader.read_byte_data h₁]

/-- `read_u16` yields a 16-bit value. -/
theorem FontReader.read_u16_lt {r r' : FontReader} {v : Nat}
    (h : r.read_u16 = .ok (v, r')) : v < 65536 := by
  rw [FontReader.read_u16] at h
  rw [bind_ok_iff] at h
  obtain ⟨⟨b0, r₁⟩, h₁, h⟩ := h
  rw [bind_ok_iff] at h
  obtain ⟨⟨b1, r₂⟩, h₂, h⟩ := h
  rw [Except.ok.injEq, Prod.mk.injEq] at h
  obtain ⟨h₃, -⟩ := h
  have := FontReader.read_byte_lt h₁
  have := FontReader.read_byte_lt h₂
  omega

/-- `read_u32` yields a 32-bit value. -/
theorem FontReader.read_u32_lt {r r' : FontReader} {v : Nat}
    (h : r.read_u32 = .ok (v, r')) : v < 2 ^ 32 := by
  rw [FontReader.read_u32] at h
  rw [bind_ok_iff] at h
  obtain ⟨⟨b0, r₁⟩, h₁, h⟩ := h
  rw [bind_ok_iff] at h
  obtain ⟨⟨b1, r₂⟩, h₂, h⟩ := h
  rw [bind_ok_iff] at h
  obtain ⟨⟨b2, r₃⟩, h₃, h⟩ := h
  rw [bind_ok_iff] at h
  obtain ⟨⟨b3, r₄⟩, h₄, h⟩ := h
  rw [Except.ok.injEq, Prod.mk.injEq] at h
  obtain ⟨h₅, -⟩ := h
  have := FontReader.read_byte_lt h₁
  have := FontReader.read_byte_lt h₂
  have := FontReader.read_byte_lt h₃
  have := FontReader.read_byte_lt h₄
  omega

/-- A seek-then-read depends only on the buffer, not on the prior cursor
position. -/
theorem read_u16_go_to_congr {r s : FontReader} (a : Nat) (h : r.data = s.data) :
    (r.go_to a).read_u16 = (s.go_to a).read_u16 := by
  have : r.go_to a = s.go_to a := by
    cases r; cases s; simp_all [FontReader.go_to]
  rw [this]

/-! ## Glyph location resolution -/

/-- Shape of the `loca` entries read by `read_loca_entries`: each output
offset is the `glyf` base plus a decoded per-glyph offset, doubled for
two-byte entries and taken as read for four-byte ones. -/
theorem read_loca_entries_spec (tb : Bool) (glyf : Nat) :
    ∀ (n : Nat) (r : FontReader) (locs : List Nat) (r' : FontReader),
      read_loca_entries tb glyf n r = .ok (locs, r') →
      ∃ raws : List Nat, raws.length = n ∧
        locs = raws.map (fun v => glyf + (if tb then v * 2 else v)) := by
  intro n
  induction n with
  | zero =>
    intro r locs r' h
    rw [read_loca_entries] at h
    rw [Except.ok.injEq, Prod.mk.injEq] at h
    obtain ⟨h₁, -⟩ := h
    exact ⟨[], rfl, h₁.symm⟩
  | succ n ih =>
    intro r locs r' h
    rw [read_loca_entries] at h
    split at h
    all_goals
      rw [bind_ok_iff] at h
      obtain ⟨⟨v, r₁⟩, h₁, h⟩ := h
      rw [bind_ok_iff] at h
      obtain ⟨⟨rest, r₂⟩, h₂, h⟩ := h
      rw [Except.ok.injEq, Prod.mk.injEq] at h
      obtain ⟨h₃, -⟩ := h
      obtain ⟨raws, hlen, hshape⟩ := ih r₁ rest r₂ h₂
      refine ⟨v :: raws, by simp [hlen], ?_⟩
      simp_all

/-- Claim C5: a table directory without a `loca` entry makes glyph location
resolution fail at once with the error naming `loca` (the source's
`HashMap` index panic on that key), before any byte of any table is read
and before any glyph location or glyph is produced. -/
theorem claim_C5 (font_table : List (String × Nat)) (r : FontReader)
    (h : font_table.find? (fun p => p.1 == "loca") = none) :
    get_glyph_location font_table r = .error (.missingRequiredTable "loca") := by
  simp [get_glyph_location, tableLookup, h]

/-- Witness for C5 at a concrete table directory lacking `loca`. -/
theorem claim_C5_witness :
    get_glyph_location [("glyf", 100), ("maxp", 0), ("head", 6), ("cmap", 200)] ⟨locaData, 0⟩ =
      .error (.missingRequiredTable "loca") :=
  claim_C5 _ _ (by rfl)

/-- Claim C6: a successful run of the glyph location resolver returns one
offset per glyph counted by `maxp`, every offset at least the `glyf` base,
and each offset is the `glyf` base plus the decoded per-glyph `loca` entry
(doubled when the `head` loca-format field is 0, i.e. short entries; taken
as read otherwise). -/
theorem claim_C6 (font_table : List (String × Nat))
    (r r₁ r₂ r₃ : FontReader) (loca_loc glyf_loc maxp_loc head_loc num_glyphs : Nat)
    (fmt : Int) (locs : List Nat)
    (hl : tableLookup font_table "loca" = .ok loca_loc)
    (hg : tableLookup font_table "glyf" = .ok glyf_loc)
    (hm : tableLookup font_table "maxp" = .ok maxp_loc)
    (hh : tableLookup font_table "head" = .ok head_loc)
    (hn : (r.go_to (maxp_loc + 4)).read_u16 = .ok (num_glyphs, r₁))
    (hf : (r₁.go_to (head_loc + 50)).read_i16 = .ok (fmt, r₂))
    (hrun : get_glyph_location font_table r = .ok (locs, r₃)) :
    locs.length = num_glyphs ∧ (∀ o ∈ locs, glyf_loc ≤ o) ∧
    ∃ raws : List Nat, raws.length = num_glyphs ∧
      locs = raws.map (fun v => glyf_loc + (if fmt = 0 then v * 2 else v)) := by
  rw [get_glyph_location] at hrun
  rw [hl, hg, hm] at hrun
  simp only [exceptBind_ok] at hrun
  rw [hn] at hrun
  simp only [exceptBind_ok] at hrun
  rw [hh] at hrun
  simp only [exceptBind_ok] at hrun
  rw [hf] at hrun
  simp only [exceptBind_ok] at hrun
  obtain ⟨raws, hlen, hshape⟩ :=
    read_loca_entries_spec (fmt == 0) glyf_loc num_glyphs (r₂.go_to loca_loc) locs r₃ hrun
  have hiff : ((fmt == 0) : Bool) = true ↔ fmt = 0 := by simp
  refine ⟨?_, ?_, raws, hlen, ?_⟩
  · rw [hshape, List.length_map, hlen]
  · intro o ho
    rw [hshape] at ho
    simp only [List.mem_map] at ho
    obtain ⟨v, -, hv⟩ := ho
    omega
  · rw [hshape]
    congr 1
    funext v
    by_cases hz : fmt = 0 <;> simp [hz]

/-- Witness for C6 on a concrete short-format font: `maxp` counts 2 glyphs,
`loca` holds 5 and 7, the `glyf` base is 100, so the offsets are 110 and
114. -/
theorem claim_C6_witness :
    ([(110 : Nat), 114].length = 2 ∧ (∀ o ∈ [(110 : Nat), 114], 100 ≤ o) ∧
    ∃ raws : List Nat, raws.length = 2 ∧
      [(110 : Nat), 114] = raws.map (fun v => 100 + (if (0 : Int) = 0 then v * 2 else v))) := by
  refine claim_C6 [("loca", 58), ("glyf", 100), ("maxp", 0), ("head", 6)]
    ⟨locaData, 0⟩ ⟨locaData, 6⟩ ⟨locaData, 58⟩ ⟨locaData, 62⟩
    58 100 0 6 2 0 [110, 114] rfl rfl rfl rfl rfl rfl rfl

/-- Claim C8 (code bug): a font whose glyph 0 record is a compound glyph
(contour-count bytes `0xFFFF`) makes glyph decoding fail for every window
size: the source clones `glyphs[0]` from the still-empty glyph vector and
panics with an index-out-of-bounds, instead of detecting the compound
glyph without crashing. -/
theorem claim_C8_bug (w : Vec2) :
    get_glyphs ⟨[255, 255], 0⟩ [0] w = .error .panicOutOfBounds := rfl

/-! ## Character map, format 12 -/

/-- Looking up the key just inserted. -/
theorem mapFind_insert_self (m : List (Nat × Nat)) (k v : Nat) :
    mapFind (mapInsert m k v) k = some v := by
  simp [mapFind, mapInsert]

/-- Inserting one key does not affect lookups of another. -/
theorem mapFind_insert_ne {m : List (Nat × Nat)} {k k' : Nat} (v : Nat) (h : k ≠ k') :
    mapFind (mapInsert m k v) k' = mapFind m k' := by
  simp [mapFind, mapInsert, List.find?_cons, h]

/-- Effect of one group's insertion loop on lookups, when the key range does
not wrap around 2^32: the codes `s + off .. s + off + count - 1` map to
consecutive glyph indices `g + (c - s)`, everything else is unchanged. -/
theorem insertGroup_find (s g : Nat) :
    ∀ (count off : Nat) (m : List (Nat × Nat)) (c : Nat),
      s + off + count ≤ 2 ^ 32 →
      mapFind (insertGroup s g count off m) c =
        if s + off ≤ c ∧ c < s + off + count then some (g + (c - s)) else mapFind m c := by
  intro count
  induction count with
  | zero =>
    intro off m c h
    rw [insertGroup, if_neg (by omega)]
  | succ n ih =>
    intro off m c h
    rw [insertGroup, ih (off + 1) _ c (by omega)]
    have hkey : (s + off) % 2 ^ 32 = s + off := Nat.mod_eq_of_lt (by omega)
    rw [hkey]
    by_cases h₁ : s + (off + 1) ≤ c ∧ c < s + (off + 1) + n
    · rw [if_pos h₁, if_pos (by omega)]
    · rw [if_neg h₁]
      by_cases h₂ : c = s + off
      · subst h₂
        rw [mapFind_insert_self, if_pos (by omega)]
        congr 1
        omega
      · rw [mapFind_insert_ne _ (fun hk => h₂ hk.symm), if_neg (by omega)]

/-- Claim C7: decoding a format 12 group list consisting of one group
`(s, e, g)` (three 32-bit reads) inserts exactly one entry per code point
in `[s, e]`, with glyph indices incrementing by one from `g`; code points
outside the group stay unmapped. -/
theorem claim_C7 (r r₁ r₂ r₃ : FontReader) (s e g : Nat)
    (h₁ : r.read_u32 = .ok (s, r₁))
    (h₂ : r₁.read_u32 = .ok (e, r₂))
    (h₃ : r₂.read_u32 = .ok (g, r₃))
    (hse : s ≤ e) (hspan : e - s + 1 < 2 ^ 32) :
    ∃ m : List (Nat × Nat), format12GroupLoop 1 r [] = .ok (m, r₃) ∧
      ∀ c, mapFind m c = if s ≤ c ∧ c ≤ e then some (g + (c - s)) else none := by
  have he : e < 2 ^ 32 := FontReader.read_u32_lt h₂
  have hcount : ((e + 2 ^ 32 - s) % 2 ^ 32 + 1) % 2 ^ 32 = e - s + 1 := by
    have hstep : (e + 2 ^ 32 - s) % 2 ^ 32 = e - s := by
      have : e + 2 ^ 32 - s = (e - s) + 2 ^ 32 := by omega
      rw [this, Nat.add_mod_right, Nat.mod_eq_of_lt (by omega)]
    rw [hstep, Nat.mod_eq_of_lt (by omega)]
  simp only [format12GroupLoop, h₁, h₂, h₃, exceptBind_ok, hcount]
  refine ⟨_, rfl, fun c => ?_⟩
  rw [insertGroup_find s g (e - s + 1) 0 [] c (by omega)]
  by_cases hc : s ≤ c ∧ c ≤ e
  · rw [if_pos (by omega), if_pos hc]
  · rw [if_neg (by omega), if_neg hc]
    rfl

/-- Witness for C7 on the concrete single group (0x1F600, 0x1F602, 500). -/
theorem claim_C7_witness :
    ∃ m : List (Nat × Nat), ∃ rf : FontReader,
      format12GroupLoop 1 ⟨groupData, 0⟩ [] = .ok (m, rf) ∧
      mapFind m 128512 = some 500 ∧ mapFind m 128513 = some 501 ∧
      mapFind m 128514 = some 502 ∧ mapFind m 128511 = none ∧ mapFind m 128515 = none := by
  obtain ⟨m, hm, hfind⟩ := claim_C7 ⟨groupData, 0⟩ ⟨groupData, 4⟩ ⟨groupData, 8⟩ ⟨groupData, 12⟩
    128512 128514 500 rfl rfl rfl (by norm_num) (by norm_num)
  refine ⟨m, _, hm, ?_, ?_, ?_, ?_, ?_⟩ <;> rw [hfind] <;> norm_num

/-! ## Character map, format 4 -/

/-- The format 4 per-segment loop only inserts keys at or above the current
code, so lookups below it are unchanged. -/
theorem format4SegLoop_find_below (sc d : Nat) (ro : Nat × Nat) :
    ∀ (fuel curr : Nat) (r : FontReader) (m m' : List (Nat × Nat)) (r' : FontReader),
      format4SegLoop sc d ro fuel curr r m = .ok (m', r') →
      ∀ c, c < curr → mapFind m' c = mapFind m c := by
  intro fuel
  induction fuel with
  | zero =>
    intro curr r m m' r' h c hc
    rw [format4SegLoop] at h
    rw [Except.ok.injEq, Prod.mk.injEq] at h
    rw [← h.1]
  | succ n ih =>
    intro curr r m m' r' h c hc
    simp only [format4SegLoop] at h
    split at h
    · have hbelow := ih (curr + 1) _ _ _ _ h c (by omega)
      rw [hbelow, mapFind_insert_ne _ (by omega)]
    · rw [bind_ok_iff] at h
      obtain ⟨⟨v₀, r₁⟩, -, h⟩ := h
      have hbelow := ih (curr + 1) _ _ _ _ h c (by omega)
      rw [hbelow, mapFind_insert_ne _ (by omega)]

/-- Claim C4 (amended): in a format 4 segment with nonzero range-offset, the
per-code loop inserts an entry for every processed code point `c`: the
entry is `(value + delta) % 65536` when the indirectly read 16-bit value is
nonzero, and 0 (the untouched initial `glyph_index`) when that value is
zero — the code point is not left unmapped. -/
theorem claim_C4 (sc d : Nat) (ro : Nat × Nat) :
    ∀ (fuel curr : Nat) (r : FontReader) (m m' : List (Nat × Nat)) (r' rv : FontReader) (c v : Nat),
      ro.2 ≠ 0 →
      format4SegLoop sc d ro fuel curr r m = .ok (m', r') →
      curr ≤ c → c < curr + fuel →
      (r.go_to (ro.1 + ro.2 + 2 * (c - sc))).read_u16 = .ok (v, rv) →
      mapFind m' c = some (if v ≠ 0 then (v + d) % 65536 else 0) := by
  intro fuel
  induction fuel with
  | zero =>
    intro curr r m m' r' rv c v hro hrun h₁ h₂ hread
    omega
  | succ n ih =>
    intro curr r m m' r' rv c v hro hrun h₁ h₂ hread
    simp only [format4SegLoop] at hrun
    rw [if_neg hro] at hrun
    rw [bind_ok_iff] at hrun
    obtain ⟨⟨v₀, r₁⟩, h₄, hrun⟩ := hrun
    by_cases hc : c = curr
    · subst hc
      have heq := hread.symm.trans h₄
      rw [Except.ok.injEq, Prod.mk.injEq] at heq
      obtain ⟨hv, -⟩ := heq
      subst hv
      have hbelow := format4SegLoop_find_below sc d ro n (c + 1) _ _ _ _ hrun c (by omega)
      rw [hbelow, mapFind_insert_self]
    · have hdata : (r₁.go_to r.get_location).data = r.data := by
        have h₅ := FontReader.read_u16_data h₄
        simpa [FontReader.go_to] using h₅
      have hread' : ((r₁.go_to r.get_location).go_to
          (ro.1 + ro.2 + 2 * (c - sc))).read_u16 = .ok (v, rv) := by
        rw [read_u16_go_to_congr _ hdata]
        exact hread
      exact ih (curr + 1) _ _ _ _ rv c v hro hrun (by omega) (by omega) hread'

/-- Witness for C4 on the concrete format 4 segment of `fmt4Data`: the
indirect value for code 0x41 is 0, and the resulting map still holds an
entry, with glyph index 0. -/
theorem claim_C4_witness :
    mapFind [(66, 12), (65, 0)] 65 = some 0 := by
  have h := claim_C4 65 5 (34, 2) 2 65 ⟨fmt4Data, 36⟩ [] [(66, 12), (65, 0)]
    ⟨fmt4Data, 36⟩ ⟨fmt4Data, 38⟩ 65 0 (by norm_num) rfl (by norm_num) (by norm_num) rfl
  simpa using h

/-- Counterexample to C4 as stated: on the concrete font `fmt4Data`
(format 4, one segment [0x41, 0x42], range-offset 2, glyph-index array 0
then 7, delta 5) the decoder inserts an entry for code point 0x41 even
though its indirect lookup yields 0 — a later lookup finds glyph index 0,
not nothing. -/
theorem claim_C4_counterexample :
    map_glyph_to_unicode [("cmap", 0)] ⟨fmt4Data, 0⟩ =
      .ok ([(66, 12), (65, 0)], ⟨fmt4Data, 36⟩) ∧
    mapFind [(66, 12), (65, 0)] 65 = some 0 ∧ some (0 : Nat) ≠ none :=
  ⟨rfl, rfl, by simp⟩

/-! ## Flag and coordinate counts -/

/-- The flag loop produces at least `remaining` flags: a repeat run is
applied in full even when it overshoots the needed count. -/
theorem readFlagsGo_length :
    ∀ (b rem : Nat) (r : FontReader) (fs : List Nat) (r' : FontReader),
      rem ≤ b → readFlagsGo b rem r = .ok (fs, r') → rem ≤ fs.length := by
  intro b
  induction b with
  | zero =>
    intro rem r fs r' hle h
    omega
  | succ n ih =>
    intro rem r fs r' hle h
    cases rem with
    | zero => omega
    | succ rem =>
      simp only [readFlagsGo] at h
      rw [bind_ok_iff] at h
      obtain ⟨⟨flag, r₁⟩, -, h⟩ := h
      split at h
      · rw [bind_ok_iff] at h
        obtain ⟨⟨rep, r₂⟩, -, h⟩ := h
        rw [bind_ok_iff] at h
        obtain ⟨⟨rest, r₃⟩, hrec, h⟩ := h
        rw [Except.ok.injEq, Prod.mk.injEq] at h
        obtain ⟨h₅, -⟩ := h
        have hr := ih (rem - rep) r₂ rest r₃ (by omega) hrec
        rw [← h₅]
        simp only [List.length_cons, List.length_append, List.length_replicate]
        omega
      · rw [bind_ok_iff] at h
        obtain ⟨⟨rest, r₂⟩, hrec, h⟩ := h
        rw [Except.ok.injEq, Prod.mk.injEq] at h
        obtain ⟨h₅, -⟩ := h
        have hr := ih rem r₁ rest r₂ (by omega) hrec
        rw [← h₅]
        simp only [List.length_cons]
        omega

/-- Each axis pass pushes exactly one coordinate per flag. -/
theorem axisPass_size (sb gb : Nat) :
    ∀ (flags : List Nat) (acc : Array ℚ) (r : FontReader) (out : Array ℚ × FontReader),
      axisPass sb gb flags acc r = .ok out → out.1.size = acc.size + flags.length := by
  intro flags
  induction flags with
  | nil =>
    intro acc r out h
    rw [axisPass] at h
    rw [Except.ok.injEq] at h
    rw [← h]
    simp
  | cons flag rest ih =>
    intro acc r out h
    simp only [axisPass] at h
    split at h
    · rw [bind_ok_iff] at h
      obtain ⟨⟨b, r₁⟩, -, h⟩ := h
      have := ih _ _ _ h
      simp only [Array.size_push, List.length_cons] at this ⊢
      omega
    · split at h
      · rw [bind_ok_iff] at h
        obtain ⟨⟨d, r₁⟩, -, h⟩ := h
        have := ih _ _ _ h
        simp only [Array.size_push, List.length_cons] at this ⊢
        omega
      · have := ih _ _ _ h
        simp only [Array.size_push, List.length_cons] at this ⊢
        omega

/-- A successful coordinate decode yields exactly one point per flag. -/
theorem get_coordinates_length {r : FontReader} {flags : List Nat} {w : Vec2}
    {ps : List (Vec2 × Bool)} {r' : FontReader}
    (h : get_coordinates r flags w = .ok (ps, r')) : ps.length = flags.length := by
  rw [get_coordinates] at h
  rw [bind_ok_iff] at h
  obtain ⟨⟨xs, r₁⟩, hx, h⟩ := h
  rw [bind_ok_iff] at h
  obtain ⟨⟨ys, r₂⟩, hy, h⟩ := h
  dsimp only at h
  have hxs := axisPass_size 1 4 flags #[] r (xs, r₁) hx
  have hys := axisPass_size 2 5 flags #[] r₁ (ys, r₂) hy
  simp only [Array.size_toArray, List.length_nil, Nat.zero_add] at hxs hys
  split at h
  · simp at h
  · rw [Except.ok.injEq, Prod.mk.injEq] at h
    obtain ⟨h₁, -⟩ := h
    rename_i c₀ tail heq
    have hzip : (List.zipWith (fun p f => (Vec2.mk p.1 p.2, bit_is_set f 0))
        (xs.toList.zip ys.toList) flags).length = flags.length := by
      simp only [List.length_zipWith, List.length_zip, Array.length_toList]
      omega
    rw [← h₁, List.length_map, hzip]

/-- Claim C3 (amended): the flag loop produces at least `n_points` flags —
a repeat run that would overshoot is applied in full, not truncated, so
more than `n_points` flags can result — and the coordinate decoder then
produces exactly one coordinate pair per flag produced (which can
likewise exceed `n_points`). -/
theorem claim_C3 (cap : Nat) (r r₁ r₂ : FontReader) (fs : List Nat) (w : Vec2)
    (ps : List (Vec2 × Bool))
    (hflags : readFlagsGo cap cap r = .ok (fs, r₁))
    (hcoords : get_coordinates r₁ fs w = .ok (ps, r₂)) :
    cap ≤ fs.length ∧ ps.length = fs.length :=
  ⟨readFlagsGo_length cap cap r fs r₁ le_rfl hflags, get_coordinates_length hcoords⟩

/-! ## Window-size dependence of decoded coordinates -/

/-- Translate one decoded point by a fixed vector, keeping its flag. -/
def shiftPoint (d : Vec2) (pc : Vec2 × Bool) : Vec2 × Bool :=
  (⟨pc.1.x + d.x, pc.1.y + d.y⟩, pc.2)

/-- Translate every point of a glyph by a fixed vector. -/
def shiftGlyph (d : Vec2) (g : Glyph) : Glyph :=
  ⟨g.coordinates.map (shiftPoint d), g.contour_end_pts⟩

/-- Changing the window size translates every decoded coordinate by the
fixed vector ((w₁.x − w₂.x)/2.25, (w₂.y − w₁.y)/4). -/
theorem get_coordinates_shift (r : FontReader) (flags : List Nat) (w₁ w₂ : Vec2) :
    get_coordinates r flags w₂ = (get_coordinates r flags w₁).map
      (fun pr => (pr.1.map (shiftPoint ⟨(w₁.x - w₂.x) / (9/4), (w₂.y - w₁.y) / 4⟩), pr.2)) := by
  rw [get_coordinates, get_coordinates]
  cases hx : axisPass 1 4 flags #[] r with
  | error e => simp [Except.map]
  | ok p =>
    obtain ⟨xs, r₁⟩ := p
    simp only [exceptBind_ok]
    try dsimp only
    cases hy : axisPass 2 5 flags #[] r₁ with
    | error e => simp [Except.map]
    | ok q =>
      obtain ⟨ys, r₂⟩ := q
      simp only [exceptBind_ok]
      try dsimp only
      cases hz : List.zipWith (fun p f => (Vec2.mk p.1 p.2, bit_is_set f 0))
          (xs.toList.zip ys.toList) flags with
      | nil => simp [Except.map]
      | cons c₀ tail =>
        simp only [Except.map, List.map_map]
        congr 1
        rw [Prod.mk.injEq]
        refine ⟨List.map_congr_left fun pc _ => ?_, rfl⟩
        simp only [Function.comp_apply, shiftPoint, Prod.mk.injEq, Vec2.mk.injEq]
        refine ⟨⟨?_, ?_⟩, trivial⟩ <;> ring

/-- Changing the window size translates every point of a decoded simple
glyph by a fixed vector. -/
theorem decode_simple_glyph_shift (n : Nat) (w₁ w₂ : Vec2) (r : FontReader) :
    decode_simple_glyph n w₂ r = (decode_simple_glyph n w₁ r).map
      (fun gr => (shiftGlyph ⟨(w₁.x - w₂.x) / (9/4), (w₂.y - w₁.y) / 4⟩ gr.1, gr.2)) := by
  rw [decode_simple_glyph, decode_simple_glyph]
  cases h₁ : read_u16_list n (r.skip_bytes 8) with
  | error e => simp [Except.map]
  | ok p =>
    obtain ⟨ce, r₁⟩ := p
    simp only [exceptBind_ok]
    try dsimp only
    cases h₂ : r₁.read_u16 with
    | error e => simp [Except.map]
    | ok q =>
      obtain ⟨il, r₂⟩ := q
      simp only [exceptBind_ok]
      try dsimp only
      cases h₃ : readFlagsGo (ce.getLast?.getD 0 + 1) (ce.getLast?.getD 0 + 1)
          (r₂.skip_bytes il) with
      | error e => simp [Except.map]
      | ok s =>
        obtain ⟨fs, r₃⟩ := s
        simp only [exceptBind_ok]
        try dsimp only
        rw [get_coordinates_shift r₃ fs w₁ w₂]
        cases h₄ : get_coordinates r₃ fs w₁ with
        | error e => simp [Except.map]
        | ok t =>
          obtain ⟨ps, r₄⟩ := t
          simp [Except.map, shiftGlyph]

/-- One step of the glyph loop commutes with the uniform translation,
including the compound-glyph branch (which duplicates glyph 0). -/
theorem getGlyphsStep_shift (w₁ w₂ : Vec2) (glyphs : List Glyph) (loc : Nat) (r : FontReader) :
    getGlyphsStep w₂ (glyphs.map (shiftGlyph ⟨(w₁.x - w₂.x) / (9/4), (w₂.y - w₁.y) / 4⟩)) loc r =
      (getGlyphsStep w₁ glyphs loc r).map
        (fun gr => (gr.1.map (shiftGlyph ⟨(w₁.x - w₂.x) / (9/4), (w₂.y - w₁.y) / 4⟩), gr.2)) := by
  rw [getGlyphsStep, getGlyphsStep]
  cases h : (r.go_to loc).read_i16 with
  | error e => simp [Except.map]
  | ok p =>
    obtain ⟨n, r₁⟩ := p
    simp only [exceptBind_ok]
    try dsimp only
    by_cases hc : i16AsUsize n = usizeMax
    · rw [if_pos hc, if_pos hc]
      cases glyphs with
      | nil => simp [Except.map]
      | cons g₀ rest => simp [Except.map]
    · rw [if_neg hc, if_neg hc]
      rw [decode_simple_glyph_shift (i16AsUsize n) w₁ w₂ r₁]
      cases hd : decode_simple_glyph (i16AsUsize n) w₁ r₁ with
      | error e => simp [Except.map]
      | ok q =>
        obtain ⟨g, r₂⟩ := q
        simp [Except.map]

/-- The whole glyph loop commutes with the uniform translation. -/
theorem getGlyphsAux_shift (w₁ w₂ : Vec2) :
    ∀ (locs : List Nat) (glyphs : List Glyph) (r : FontReader),
      getGlyphsAux w₂ locs
          (glyphs.map (shiftGlyph ⟨(w₁.x - w₂.x) / (9/4), (w₂.y - w₁.y) / 4⟩)) r =
        (getGlyphsAux w₁ locs glyphs r).map
          (fun gr => (gr.1.map (shiftGlyph ⟨(w₁.x - w₂.x) / (9/4), (w₂.y - w₁.y) / 4⟩), gr.2)) := by
  intro locs
  induction locs with
  | nil => intro glyphs r; simp [getGlyphsAux, Except.map]
  | cons loc rest ih =>
    intro glyphs r
    rw [getGlyphsAux, getGlyphsAux]
    rw [getGlyphsStep_shift w₁ w₂ glyphs loc r]
    cases h : getGlyphsStep w₁ glyphs loc r with
    | error e => simp [Except.map]
    | ok p =>
      obtain ⟨glyphs₁, r₁⟩ := p
      simp only [Except.map, exceptBind_ok]
      try dsimp only
      exact ih glyphs₁ r₁

/-- Claim C10: decoded glyph points depend on the `window_size` argument,
not on the font bytes alone — running `get_glyphs` on the same bytes with
window `w₂` instead of `w₁` translates every point of every glyph by the
same vector (−Δwindow_x / 2.25, +Δwindow_y / 4.0), where Δwindow = w₂ − w₁
(and errors are unchanged). -/
theorem claim_C10 (r : FontReader) (glyph_locations : List Nat) (w₁ w₂ : Vec2) :
    get_glyphs r glyph_locations w₂ = (get_glyphs r glyph_locations w₁).map
      (fun gr => (gr.1.map (shiftGlyph ⟨(w₁.x - w₂.x) / (9/4), (w₂.y - w₁.y) / 4⟩), gr.2)) := by
  rw [get_glyphs, get_glyphs]
  have h := getGlyphsAux_shift w₁ w₂ glyph_locations [] r
  simpa using h

/-! ## Zero-contour glyphs (C9) -/

/-- Claim C9 (amended): for a declared contour count of 0 the source
computes the flag capacity as `last().unwrap_or(&0) + 1 = 1`, not 0: a
successful decode of such a glyph has an empty contour-end list but at
least one flag read and at least one decoded coordinate pair. -/
theorem claim_C9 (w : Vec2) (r r' : FontReader) (g : Glyph)
    (h : decode_simple_glyph 0 w r = .ok (g, r')) :
    g.contour_end_pts = [] ∧ 1 ≤ g.coordinates.length := by
  simp only [decode_simple_glyph, read_u16_list, exceptBind_ok, List.getLast?_nil,
    Option.getD_none, Nat.zero_add] at h
  rw [bind_ok_iff] at h
  obtain ⟨⟨ilen, r₂⟩, -, h⟩ := h
  try dsimp only at h
  rw [bind_ok_iff] at h
  obtain ⟨⟨fs, r₃⟩, hfs, h⟩ := h
  try dsimp only at h
  rw [bind_ok_iff] at h
  obtain ⟨⟨ps, r₄⟩, hps, h⟩ := h
  try dsimp only at h
  rw [Except.ok.injEq, Prod.mk.injEq] at h
  obtain ⟨hg, -⟩ := h
  have h₁ : 1 ≤ fs.length := readFlagsGo_length 1 1 _ fs r₃ le_rfl hfs
  have h₂ := get_coordinates_length hps
  rw [← hg]
  exact ⟨rfl, by dsimp only; omega⟩

/-- Witness for C9 on the concrete zero-contour glyph record. -/
theorem claim_C9_witness :
    decode_simple_glyph 0 ⟨0, 0⟩ ⟨zeroContourData, 2⟩ =
      .ok (⟨[(⟨0, 0⟩, false)], []⟩, ⟨zeroContourData, 13⟩) ∧
    (Glyph.mk [(⟨0, 0⟩, false)] []).contour_end_pts = [] ∧
    1 ≤ (Glyph.mk [(⟨0, 0⟩, false)] []).coordinates.length := by
  have h : decode_simple_glyph 0 ⟨0, 0⟩ ⟨zeroContourData, 2⟩ =
      .ok (⟨[(⟨0, 0⟩, false)], []⟩, ⟨zeroContourData, 13⟩) := by
    norm_num +decide [decode_simple_glyph, read_u16_list, readFlagsGo, get_coordinates, axisPass,
      zeroContourData, FontReader.read_byte, FontReader.read_u16, FontReader.read_i16,
      FontReader.go_to, FontReader.skip_bytes, toSigned16, bit_is_set, prevIdx, FONT_SIZE_FACTOR,
      List.getLast?, Array.getD]
  exact ⟨h, claim_C9 ⟨0, 0⟩ _ _ _ h⟩

set_option maxHeartbeats 1600000 in
/-- Counterexample to C9 as stated: decoding the concrete zero-contour
glyph record produces one flag and one coordinate pair, not empty lists —
one flag byte is read. -/
theorem claim_C9_counterexample :
    get_glyphs ⟨zeroContourData, 0⟩ [0] ⟨0, 0⟩ =
      .ok ([⟨[(⟨0, 0⟩, false)], []⟩], ⟨zeroContourData, 13⟩) ∧
    ([((⟨0, 0⟩ : Vec2), false)] : List (Vec2 × Bool)).length ≠ 0 := by
  constructor
  · norm_num +decide [get_glyphs, getGlyphsAux, getGlyphsStep, decode_simple_glyph, read_u16_list,
      readFlagsGo, get_coordinates, axisPass, zeroContourData, FontReader.read_byte,
      FontReader.read_u16, FontReader.read_i16, FontReader.go_to, FontReader.skip_bytes,
      toSigned16, i16AsUsize, usizeMax, bit_is_set, prevIdx, FONT_SIZE_FACTOR, List.getLast?,
      Array.getD]
  · simp

/-! ## Flag overshoot (C3) -/

set_option maxHeartbeats 1600000 in
/-- Concrete evaluation of the coordinate decoder on the six flags of the
overshoot glyph (all same-value bits set: no coordinate bytes are read). -/
theorem overshootCoordsEval :
    get_coordinates ⟨[0,1, 0,0,0,0,0,0,0,0, 0,1, 0,0, 57, 5], 16⟩
        [57, 57, 57, 57, 57, 57] ⟨0, 0⟩ =
      .ok ([(⟨0, 0⟩, true), (⟨0, 0⟩, true), (⟨0, 0⟩, true), (⟨0, 0⟩, true), (⟨0, 0⟩, true),
        (⟨0, 0⟩, true)], ⟨[0,1, 0,0,0,0,0,0,0,0, 0,1, 0,0, 57, 5], 16⟩) := by
  have hx : axisPass 1 4 [57, 57, 57, 57, 57, 57] #[]
      (⟨[0,1, 0,0,0,0,0,0,0,0, 0,1, 0,0, 57, 5], 16⟩ : FontReader) =
      .ok (#[0, 0, 0, 0, 0, 0], ⟨[0,1, 0,0,0,0,0,0,0,0, 0,1, 0,0, 57, 5], 16⟩) := rfl
  have hy : axisPass 2 5 [57, 57, 57, 57, 57, 57] #[]
      (⟨[0,1, 0,0,0,0,0,0,0,0, 0,1, 0,0, 57, 5], 16⟩ : FontReader) =
      .ok (#[0, 0, 0, 0, 0, 0], ⟨[0,1, 0,0,0,0,0,0,0,0, 0,1, 0,0, 57, 5], 16⟩) := rfl
  rw [get_coordinates, hx]
  simp only [exceptBind_ok]
  rw [hy]
  norm_num +decide [bit_is_set, List.zipWith, List.zip]

/-- Witness for C3: on the concrete glyph record with 2 needed flags and a
repeat run of 5, the loop produces 6 flags (at least the 2 needed) and the
coordinate decoder produces 6 pairs, one per flag. -/
theorem claim_C3_witness :
    readFlagsGo 2 2 ⟨overshootData, 14⟩ =
      .ok ([57, 57, 57, 57, 57, 57], ⟨overshootData, 16⟩) ∧
    2 ≤ ([57, 57, 57, 57, 57, 57] : List Nat).length ∧
    ([(⟨0, 0⟩, true), (⟨0, 0⟩, true), (⟨0, 0⟩, true), (⟨0, 0⟩, true), (⟨0, 0⟩, true),
      (⟨0, 0⟩, true)] : List (Vec2 × Bool)).length =
      ([57, 57, 57, 57, 57, 57] : List Nat).length := by
  have h₁ : readFlagsGo 2 2 ⟨overshootData, 14⟩ =
      .ok ([57, 57, 57, 57, 57, 57], ⟨overshootData, 16⟩) := rfl
  have h₂ : get_coordinates ⟨overshootData, 16⟩ [57, 57, 57, 57, 57, 57] ⟨0, 0⟩ =
      .ok ([(⟨0, 0⟩, true), (⟨0, 0⟩, true), (⟨0, 0⟩, true), (⟨0, 0⟩, true), (⟨0, 0⟩, true),
        (⟨0, 0⟩, true)], ⟨overshootData, 16⟩) := overshootCoordsEval
  obtain ⟨a, b⟩ := claim_C3 2 _ _ _ _ _ _ h₁ h₂
  exact ⟨h₁, a, b⟩

set_option maxHeartbeats 1600000 in
/-- Counterexample to C3 as stated: on the concrete glyph with
`n_points = 2` and a repeat count of 5 on the first flag, the run is not
truncated: 6 flags and 6 coordinate pairs result, not 2. -/
theorem claim_C3_counterexample :
    get_glyphs ⟨overshootData, 0⟩ [0] ⟨0, 0⟩ =
      .ok ([⟨[(⟨0, 0⟩, true), (⟨0, 0⟩, true), (⟨0, 0⟩, true), (⟨0, 0⟩, true), (⟨0, 0⟩, true),
        (⟨0, 0⟩, true)], [1]⟩], ⟨overshootData, 16⟩) ∧
    ([(⟨0, 0⟩, true), (⟨0, 0⟩, true), (⟨0, 0⟩, true), (⟨0, 0⟩, true), (⟨0, 0⟩, true),
      (⟨0, 0⟩, true)] : List (Vec2 × Bool)).length ≠ 2 := by
  constructor
  · norm_num +decide [get_glyphs, getGlyphsAux, getGlyphsStep, decode_simple_glyph,
      read_u16_list, readFlagsGo, overshootCoordsEval, overshootData, FontReader.read_byte,
      FontReader.read_u16, FontReader.read_i16, FontReader.go_to, FontReader.skip_bytes,
      toSigned16, i16AsUsize, usizeMax, bit_is_set, List.getLast?, Array.getD,
      List.replicate_succ]
  · simp

/-! ## Triangle round trip (C1) and compound glyphs (C2) -/

set_option maxHeartbeats 1600000 in
/-- Claim C1 (amended): decoding the synthetic triangle font (stored
absolute points (0,0), (10,0), (0,10)) yields exactly 3 coordinate pairs,
all on-curve, but each coordinate is the stored value scaled by
1/FONT_SIZE_FACTOR (= 1/10) and then translated by
(−first.x − w.x/2.25, −first.y + w.y/4) for the given window size w — not
the stored values themselves. -/
theorem claim_C1 (wx wy : ℚ) : get_glyphs ⟨triData, 0⟩ [0] ⟨wx, wy⟩ =
    .ok ([⟨[(⟨0/10 - (0/10 + wx/(9/4)), 0/10 - (0/10 - wy/4)⟩, true),
            (⟨10/10 - (0/10 + wx/(9/4)), 0/10 - (0/10 - wy/4)⟩, true),
            (⟨0/10 - (0/10 + wx/(9/4)), 10/10 - (0/10 - wy/4)⟩, true)], [2]⟩],
        ⟨triData, 29⟩) := by
  norm_num +decide [get_glyphs, getGlyphsAux, getGlyphsStep, decode_simple_glyph, read_u16_list,
    readFlagsGo, get_coordinates, axisPass, triData, FontReader.read_byte, FontReader.read_u16,
    FontReader.read_i16, FontReader.go_to, FontReader.skip_bytes, toSigned16, i16AsUsize,
    usizeMax, bit_is_set, prevIdx, FONT_SIZE_FACTOR, List.getLast?, Array.getD]

set_option maxHeartbeats 1600000 in
/-- Counterexample to C1 as stated: with window size (0,0) the decoded
triangle points are (0,0), (1,0), (0,1) — not the stored coordinate pairs
(0,0), (10,0), (0,10). -/
theorem claim_C1_counterexample :
    get_glyphs ⟨triData, 0⟩ [0] ⟨0, 0⟩ =
      .ok ([⟨[(⟨0, 0⟩, true), (⟨1, 0⟩, true), (⟨0, 1⟩, true)], [2]⟩], ⟨triData, 29⟩) ∧
    ([(⟨0, 0⟩, true), (⟨1, 0⟩, true), (⟨0, 1⟩, true)] : List (Vec2 × Bool)) ≠
      [(⟨0, 0⟩, true), (⟨10, 0⟩, true), (⟨0, 10⟩, true)] := by
  constructor
  · norm_num +decide [get_glyphs, getGlyphsAux, getGlyphsStep, decode_simple_glyph, read_u16_list,
      readFlagsGo, get_coordinates, axisPass, triData, FontReader.read_byte, FontReader.read_u16,
      FontReader.read_i16, FontReader.go_to, FontReader.skip_bytes, toSigned16, i16AsUsize,
      usizeMax, bit_is_set, prevIdx, FONT_SIZE_FACTOR, List.getLast?, Array.getD]
  · norm_num

/-- The sentinel comparison of `get_glyphs`: the contour-count `-1`,
cast `as usize`, equals `usize::MAX`. -/
theorem i16AsUsize_neg_one : i16AsUsize (-1) = usizeMax := by
  rw [i16AsUsize, usizeMax]
  norm_num
  rfl

/-- The compound branch of one `get_glyphs` iteration: when the contour
count satisfies the sentinel comparison and the glyph list is nonempty,
the step appends a clone of glyph 0 and reads nothing further at the
offset. -/
theorem getGlyphsStep_compound (w : Vec2) (loc : Nat) (r r₁ : FontReader) (n : Int)
    (g₀ : Glyph) (rest : List Glyph)
    (h : (r.go_to loc).read_i16 = .ok (n, r₁)) (hn : i16AsUsize n = usizeMax) :
    getGlyphsStep w (g₀ :: rest) loc r = .ok ((g₀ :: rest) ++ [g₀], r₁) := by
  rw [getGlyphsStep, h]
  simp only [exceptBind_ok]
  try dsimp only
  rw [if_pos hn]

/-- Claim C2 (amended): a glyph record whose contour-count read satisfies
the sentinel comparison (`n_contours as usize == usize::MAX`, i.e. stored
bytes `0xFFFF`) is detected, and the decoder performs no further reads at
that offset — but instead of recording a distinct compound variant it
appends a clone of the glyph at index 0 of the glyph list built so far. -/
theorem claim_C2 (w : Vec2) (loc : Nat) (r r₁ : FontReader) (n : Int)
    (g₀ : Glyph) (rest : List Glyph)
    (h : (r.go_to loc).read_i16 = .ok (n, r₁)) (hn : i16AsUsize n = usizeMax) :
    getGlyphsStep w (g₀ :: rest) loc r = .ok ((g₀ :: rest) ++ [g₀], r₁) :=
  getGlyphsStep_compound w loc r r₁ n g₀ rest h hn

/-- Witness for C2: the compound record (bytes `0xFFFF`) at offset 29 of
`compoundData` appends a clone of glyph 0, with the cursor left just after
the two contour-count bytes. -/
theorem claim_C2_witness :
    getGlyphsStep ⟨0, 0⟩ [⟨[], []⟩] 29 ⟨compoundData, 0⟩ =
      .ok ([⟨[], []⟩, ⟨[], []⟩], ⟨compoundData, 31⟩) := by
  have h : ((⟨compoundData, 0⟩ : FontReader).go_to 29).read_i16 =
      .ok (-1, ⟨compoundData, 31⟩) := by
    norm_num [FontReader.go_to, FontReader.read_i16, FontReader.read_u16, FontReader.read_byte,
      compoundData, triData, toSigned16]
  exact claim_C2 ⟨0, 0⟩ 29 ⟨compoundData, 0⟩ ⟨compoundData, 31⟩ (-1) ⟨[], []⟩ [] h
    i16AsUsize_neg_one

set_option maxHeartbeats 1600000 in
/-- Counterexample to C2 as stated: decoding `compoundData` (triangle glyph
then a compound record) yields two identical glyphs — the compound record
is stored as a copy of the simple triangle glyph, which carries 3 points,
not as a point-free compound variant. -/
theorem claim_C2_counterexample :
    get_glyphs ⟨compoundData, 0⟩ [0, 29] ⟨0, 0⟩ =
      .ok ([⟨[(⟨0, 0⟩, true), (⟨1, 0⟩, true), (⟨0, 1⟩, true)], [2]⟩,
            ⟨[(⟨0, 0⟩, true), (⟨1, 0⟩, true), (⟨0, 1⟩, true)], [2]⟩], ⟨compoundData, 31⟩) ∧
    (Glyph.mk [(⟨0, 0⟩, true), (⟨1, 0⟩, true), (⟨0, 1⟩, true)] [2]).coordinates ≠ [] := by
  have hstep0 : getGlyphsStep ⟨0, 0⟩ [] 0 ⟨compoundData, 0⟩ =
      .ok ([⟨[(⟨0, 0⟩, true), (⟨1, 0⟩, true), (⟨0, 1⟩, true)], [2]⟩], ⟨compoundData, 29⟩) := by
    norm_num +decide [getGlyphsStep, decode_simple_glyph, read_u16_list, readFlagsGo,
      get_coordinates, axisPass, compoundData, triData, FontReader.read_byte,
      FontReader.read_u16, FontReader.read_i16, FontReader.go_to, FontReader.skip_bytes,
      toSigned16, i16AsUsize, usizeMax, bit_is_set, prevIdx, FONT_SIZE_FACTOR, List.getLast?,
      Array.getD]
  have hread : ((⟨compoundData, 29⟩ : FontReader).go_to 29).read_i16 =
      .ok (-1, ⟨compoundData, 31⟩) := by
    norm_num [FontReader.go_to, FontReader.read_i16, FontReader.read_u16, FontReader.read_byte,
      compoundData, triData, toSigned16]
  have hstep1 := getGlyphsStep_compound ⟨0, 0⟩ 29 ⟨compoundData, 29⟩ ⟨compoundData, 31⟩ (-1)
    ⟨[(⟨0, 0⟩, true), (⟨1, 0⟩, true), (⟨0, 1⟩, true)] , [2]⟩ [] hread i16AsUsize_neg_one
  refine ⟨?_, by simp⟩
  rw [get_glyphs, getGlyphsAux, hstep0]
  simp only [exceptBind_ok]
  try dsimp only
  rw [getGlyphsAux, hstep1]
  simp only [exceptBind_ok]
  try dsimp only
  rw [getGlyphsAux]
  rfl
